import Mathlib

/-!
Shallow embedding of the `diesel-autoincrement-new-struct` rewriter.

The repository is a single declarative macro, `diesel_new!` (src/src/lib.rs),
plus a thin attribute wrapper `NewInsertable!`.  The macro matches a struct
declaration of the shape

  $(#[$struct_meta:meta])*
  $struct_vis:vis struct $StructName:ident {
      $(#[$_id_meta:meta])*
      $_id_field_vis:vis id : $_id_type:ty,
      $( $(#[$field_meta:meta])* $field_vis:vis $field_name:ident : $field_ty:ty ),* $(,)?
  }

and emits (via `paste!`)

  $(#[$struct_meta])*
  #[derive(diesel::Insertable)]
  $struct_vis struct [< New $StructName >] {
      $( $(#[$field_meta])* $field_vis $field_name: $field_ty, )*
  }

We model token-level syntax structurally: attributes, visibilities, names and
types are opaque strings; a struct declaration records its attribute list,
visibility, name, field list, and whether a trailing comma follows the last
field (the macro pattern demands a literal comma right after the `id` field,
so that lexical detail is semantically relevant).
-/

namespace DieselNew

/-- One field of a struct declaration, mirroring the macro captures
`$(#[$field_meta:meta])* $field_vis:vis $field_name:ident : $field_ty:ty`.
Attributes (including doc comments, which Rust desugars to `#[doc = ...]`
attributes) are opaque token strings kept in written order. -/
structure FieldDecl where
  field_meta : List String
  field_vis : String
  field_name : String
  field_ty : String
deriving DecidableEq, Repr

/-- A struct declaration as the macro sees it, mirroring the captures
`$(#[$struct_meta:meta])* $struct_vis:vis struct $StructName:ident { ... }`.
`trailingComma` records whether a comma follows the last field in the
braces; fields other than the last are always comma-separated in the token
stream, so only the trailing separator needs recording. -/
structure StructDecl where
  struct_meta : List String
  struct_vis : String
  StructName : String
  fields : List FieldDecl
  trailingComma : Bool
deriving DecidableEq, Repr

/-- The failure raised when the input does not match the macro pattern
(spec: MalformedInputError).  `expected` is the pattern token at which
matching fails, which the host compiler's diagnostic reports (for an empty
field list or a first field not named `id`, matching fails at the literal
`id` token of the pattern; for a sole `id` field with no trailing comma it
fails at the literal `,` token that the pattern requires after the id
field's type). -/
structure MalformedInputError where
  expected : String
deriving DecidableEq, Repr

/-- The marker attribute the macro appends after `$(#[$struct_meta])*`:
`#[derive(diesel::Insertable)]`. -/
def insertableMarker : String := "#[derive(diesel::Insertable)]"

/-- `paste! [< New $StructName >]`: direct concatenation of the literal
token `New` onto the base identifier, no case change, no separator. -/
def newIdent (base : String) : String := "New" ++ base

/-- The `diesel_new!` macro as a function on struct declarations.
Matching: the field list must start with a field literally named `id`
followed by a literal comma; the remaining fields are captured by the
repetition `$( ... ),* $(,)?`.  Emission: the struct attributes verbatim,
then the insertable marker, then the original visibility, the name prefixed
with `New`, and the remaining fields each re-emitted verbatim with a
trailing comma (so the output has a trailing comma iff it has any field).
The id field's captures (`$_id_meta`, `$_id_field_vis`, `$_id_type`) are
bound but never used in the emission. -/
def diesel_new (s : StructDecl) : Except MalformedInputError StructDecl :=
  match s.fields with
  | [] => Except.error ⟨"id"⟩
  | f :: rest =>
    if f.field_name = "id" then
      if rest.isEmpty && !s.trailingComma then
        Except.error ⟨","⟩
      else
        Except.ok
          { struct_meta := s.struct_meta ++ [insertableMarker]
            struct_vis := s.struct_vis
            StructName := newIdent s.StructName
            fields := rest
            trailingComma := !rest.isEmpty }
    else
      Except.error ⟨"id"⟩

/-- Block mode: `diesel_new! { <struct block> }`.  The macro invocation is
replaced by its expansion, which is the derived struct alone; the matched
original tokens are consumed.  The result lists the declarations emitted at
the call site. -/
def blockMode (s : StructDecl) : Except MalformedInputError (List StructDecl) :=
  (diesel_new s).map (fun d => [d])

/-- Attribute mode: `#[apply(NewInsertable!)]` on a struct declaration.
`NewInsertable!` rewrites its item to `#[derive(diesel_new!)] <item>`, and
the derive-style wrapper re-emits the item unchanged followed by the
`diesel_new!` expansion of the item's tokens.  Per the host language's
attribute processing, only the attributes written below the applying
attribute are part of the item token stream handed to the macro;
`attrsAbove` holds those written above it, which stay attached to the
re-emitted original but are invisible to `diesel_new!` (exercised by the
`SuperUser` test, which keeps `#[derive(Identifiable)]` above the apply
attribute precisely so it is not copied to the derived struct). -/
def NewInsertable (attrsAbove : List String) (s : StructDecl) :
    Except MalformedInputError (List StructDecl) :=
  (diesel_new s).map
    (fun d => [{ s with struct_meta := attrsAbove ++ s.struct_meta }, d])

/-- The derived declaration a rewriter invocation emits: the last emitted
declaration, when the invocation succeeds. -/
def emittedDerived (r : Except MalformedInputError (List StructDecl)) :
    Option StructDecl :=
  match r with
  | Except.ok l => l.getLast?
  | Except.error _ => none

/-- Sample input: the `User` struct from the crate's test module. -/
def userDecl : StructDecl :=
  { struct_meta := ["#[derive(Debug, Clone, Queryable, AsChangeset)]",
                    "#[diesel(table_name = users)]"]
    struct_vis := "pub"
    StructName := "User"
    fields := [⟨[], "", "id", "i32"⟩, ⟨["#[allow(dead_code)]"], "pub", "name", "String"⟩]
    trailingComma := false }

/-- The derived declaration for `userDecl`. -/
def newUserDecl : StructDecl :=
  { struct_meta := ["#[derive(Debug, Clone, Queryable, AsChangeset)]",
                    "#[diesel(table_name = users)]",
                    insertableMarker]
    struct_vis := "pub"
    StructName := "NewUser"
    fields := [⟨["#[allow(dead_code)]"], "pub", "name", "String"⟩]
    trailingComma := true }

/-- Characterization of a successful match: the field list starts with a
field named `id`, the comma after it is present (for a sole `id` field
that is the trailing comma), and the output is built from the struct
metadata, visibility, name and the remaining fields only. -/
theorem diesel_new_ok_cases (s d : StructDecl) (h : diesel_new s = Except.ok d) :
    ∃ f rest, s.fields = f :: rest ∧ f.field_name = "id" ∧
      (rest = [] → s.trailingComma = true) ∧
      d = { struct_meta := s.struct_meta ++ [insertableMarker]
            struct_vis := s.struct_vis
            StructName := newIdent s.StructName
            fields := rest
            trailingComma := !rest.isEmpty } := by
  obtain ⟨sm, sv, n, fs, tc⟩ := s
  cases fs with
  | nil => exact absurd h (by simp [diesel_new])
  | cons f rest =>
    by_cases hid : f.field_name = "id"
    · by_cases hc : (rest.isEmpty && !tc) = true
      · exact absurd h (by simp [diesel_new, hid, hc])
      · refine ⟨f, rest, rfl, hid, ?_, ?_⟩
        · intro hrest
          subst hrest
          simpa using hc
        · have h2 := h
          simp only [diesel_new, hid, if_true, hc, Bool.not_eq_true] at h2
          rw [if_neg (by simp)] at h2
          exact (Except.ok.inj h2).symm
    · exact absurd h (by simp [diesel_new, hid])

/-- Converse characterization: any input of the accepted shape is matched
and produces the derived declaration. -/
theorem diesel_new_ok_intro (s : StructDecl) (f : FieldDecl) (rest : List FieldDecl)
    (hf : s.fields = f :: rest) (hid : f.field_name = "id")
    (hc : rest = [] → s.trailingComma = true) :
    diesel_new s = Except.ok
      { struct_meta := s.struct_meta ++ [insertableMarker]
        struct_vis := s.struct_vis
        StructName := newIdent s.StructName
        fields := rest
        trailingComma := !rest.isEmpty } := by
  obtain ⟨sm, sv, n, fs, tc⟩ := s
  subst hf
  have hcond : (rest.isEmpty && !tc) = false := by
    cases rest with
    | nil => simpa using hc rfl
    | cons a l => simp
  simp [diesel_new, hid, hcond]

/-- Any head field not named `id` (or an empty field list) makes matching
fail at the pattern's literal `id` token. -/
theorem diesel_new_error_of_bad_head (s : StructDecl)
    (h : ∀ f, s.fields.head? = some f → f.field_name ≠ "id") :
    diesel_new s = Except.error ⟨"id"⟩ := by
  obtain ⟨sm, sv, n, fs, tc⟩ := s
  cases fs with
  | nil => rfl
  | cons f rest =>
    have hid : f.field_name ≠ "id" := h f rfl
    simp [diesel_new, hid]

/-- Sample input for rejection: the `Empty` struct of scenario S3, whose
only field is `name` (no `id` field). -/
def nonIdDecl : StructDecl :=
  { struct_meta := []
    struct_vis := "pub"
    StructName := "Empty"
    fields := [⟨[], "", "name", "Text"⟩]
    trailingComma := false }

/-- Sample input for rejection: a struct with an empty field list. -/
def noFieldsDecl : StructDecl :=
  { struct_meta := []
    struct_vis := "pub"
    StructName := "Unit"
    fields := []
    trailingComma := false }

/-- The `SuperUser` struct from the crate's test module as the attribute
macro sees it: only the attributes written below `#[apply(NewInsertable!)]`
are part of the item. -/
def superUserDecl : StructDecl :=
  { struct_meta := ["#[derive(Queryable, AsChangeset)]",
                    "#[diesel(table_name = users)]"]
    struct_vis := "pub"
    StructName := "SuperUser"
    fields := [⟨["#[allow(dead_code)]"], "", "id", "i32"⟩, ⟨[], "pub", "name", "String"⟩]
    trailingComma := true }

/-- The re-emitted original `SuperUser`, which keeps the
`#[derive(Identifiable)]` written above the apply attribute. -/
def origSuperUserDecl : StructDecl :=
  { struct_meta := ["#[derive(Identifiable)]",
                    "#[derive(Queryable, AsChangeset)]",
                    "#[diesel(table_name = users)]"]
    struct_vis := "pub"
    StructName := "SuperUser"
    fields := [⟨["#[allow(dead_code)]"], "", "id", "i32"⟩, ⟨[], "pub", "name", "String"⟩]
    trailingComma := true }

/-- The derived `NewSuperUser` declaration. -/
def newSuperUserDecl : StructDecl :=
  { struct_meta := ["#[derive(Queryable, AsChangeset)]",
                    "#[diesel(table_name = users)]",
                    insertableMarker]
    struct_vis := "pub"
    StructName := "NewSuperUser"
    fields := [⟨[], "pub", "name", "String"⟩]
    trailingComma := true }

/-- C1: whenever the rewriter accepts an input and produces a derived
declaration, that declaration's fields are exactly the input's fields
minus the first (`id`) field, in the original order; and none of the id
field's own data is propagated: replacing the id field's attributes,
visibility and type by arbitrary others (its name is the literal `id` on
every accepted input) leaves the derived declaration unchanged. -/
theorem field_stripping (s d : StructDecl) (h : diesel_new s = Except.ok d) :
    d.fields = s.fields.drop 1 ∧
    ∀ m v t, diesel_new { s with fields := ⟨m, v, "id", t⟩ :: s.fields.drop 1 } =
      Except.ok d := by
  obtain ⟨f, rest, hf, hid, hc, hd⟩ := diesel_new_ok_cases s d h
  have hdrop : s.fields.drop 1 = rest := by rw [hf]; rfl
  constructor
  · rw [hd, hdrop]
  · intro m v t
    rw [hdrop, hd]
    exact diesel_new_ok_intro _ ⟨m, v, "id", t⟩ rest rfl rfl hc

/-- C1 witness: the `User` struct. -/
theorem field_stripping_witness :
    newUserDecl.fields = userDecl.fields.drop 1 ∧
    ∀ m v t, diesel_new { userDecl with fields := ⟨m, v, "id", t⟩ :: userDecl.fields.drop 1 } =
      Except.ok newUserDecl :=
  field_stripping userDecl newUserDecl rfl

/-- C2: any input whose first field is not literally named `id`, or whose
field list is empty, is rejected with a MalformedInputError, and neither
block mode nor attribute mode emits any declaration. -/
theorem rejection_law (s : StructDecl) (attrsAbove : List String)
    (h : ∀ f, s.fields.head? = some f → f.field_name ≠ "id") :
    ∃ e : MalformedInputError,
      diesel_new s = Except.error e ∧
      blockMode s = Except.error e ∧
      NewInsertable attrsAbove s = Except.error e := by
  have he := diesel_new_error_of_bad_head s h
  exact ⟨⟨"id"⟩, he, by simp [blockMode, he, Except.map], by simp [NewInsertable, he, Except.map]⟩

/-- C2 witness: the `Empty` struct of scenario S3. -/
theorem rejection_law_witness :
    ∃ e : MalformedInputError,
      diesel_new nonIdDecl = Except.error e ∧
      blockMode nonIdDecl = Except.error e ∧
      NewInsertable [] nonIdDecl = Except.error e :=
  rejection_law nonIdDecl []
    (by intro f hf; injection hf with hf; subst hf; decide)

/-- C3 as stated is refuted: block mode over the `User` struct emits
exactly one declaration, the derived struct, and the original struct is
not among the emitted declarations. -/
theorem block_mode_counterexample :
    blockMode userDecl = Except.ok [newUserDecl] ∧ userDecl ∉ [newUserDecl] :=
  ⟨rfl, by decide⟩

/-- C3 (amended): in block mode the rewriter returns a single declaration,
the derived struct; the original struct block is consumed by the macro
invocation and is not re-emitted. -/
theorem block_mode_emits_derived_only (s d : StructDecl)
    (h : diesel_new s = Except.ok d) :
    blockMode s = Except.ok [d] := by
  simp [blockMode, h, Except.map]

/-- C3 witness: the `User` struct. -/
theorem block_mode_emits_derived_only_witness :
    blockMode userDecl = Except.ok [newUserDecl] :=
  block_mode_emits_derived_only userDecl newUserDecl rfl

/-- C4: for the same input struct, block-mode and attribute-mode
invocation produce identical derived declarations (in the embedding,
equality of `StructDecl` values is byte identity of the emitted text). -/
theorem mode_equivalence (s : StructDecl) (attrsAbove : List String) :
    emittedDerived (blockMode s) = emittedDerived (NewInsertable attrsAbove s) := by
  cases h : diesel_new s with
  | error e => simp [blockMode, NewInsertable, emittedDerived, h, Except.map]
  | ok d => simp [blockMode, NewInsertable, emittedDerived, h, Except.map]

/-- C5: the derived declaration carries the input's struct-level
attributes unchanged and in order, with exactly one insertable marker
appended after them (one more occurrence than in the input, never
replacing a user attribute), and the input's visibility unchanged. -/
theorem struct_metadata_preservation (s d : StructDecl)
    (h : diesel_new s = Except.ok d) :
    d.struct_meta = s.struct_meta ++ [insertableMarker] ∧
    d.struct_vis = s.struct_vis ∧
    d.struct_meta.count insertableMarker = s.struct_meta.count insertableMarker + 1 := by
  obtain ⟨f, rest, hf, hid, hc, hd⟩ := diesel_new_ok_cases s d h
  subst hd
  refine ⟨rfl, rfl, ?_⟩
  simp

/-- C5 witness: the `User` struct. -/
theorem struct_metadata_preservation_witness :
    newUserDecl.struct_meta = userDecl.struct_meta ++ [insertableMarker] ∧
    newUserDecl.struct_vis = userDecl.struct_vis ∧
    newUserDecl.struct_meta.count insertableMarker =
      userDecl.struct_meta.count insertableMarker + 1 :=
  struct_metadata_preservation userDecl newUserDecl rfl

/-- C6: the derived declaration's name is the literal token `New`
concatenated directly onto the original struct name, with no case change
and no inserted separator. -/
theorem naming_law (s d : StructDecl) (h : diesel_new s = Except.ok d) :
    d.StructName = "New" ++ s.StructName := by
  obtain ⟨f, rest, hf, hid, hc, hd⟩ := diesel_new_ok_cases s d h
  subst hd
  rfl

/-- C6 witness: `User` becomes `NewUser`. -/
theorem naming_law_witness : newUserDecl.StructName = "New" ++ userDecl.StructName :=
  naming_law userDecl newUserDecl rfl

/-- C7: each retained field of the derived declaration carries exactly the
attribute list (in order) and the visibility of the corresponding input
field (output index `i` corresponds to input index `i + 1`). -/
theorem field_metadata_preservation (s d : StructDecl)
    (h : diesel_new s = Except.ok d) (i : ℕ)
    (hi : i < d.fields.length) (hj : i + 1 < s.fields.length) :
    (d.fields.get ⟨i, hi⟩).field_meta = (s.fields.get ⟨i + 1, hj⟩).field_meta ∧
    (d.fields.get ⟨i, hi⟩).field_vis = (s.fields.get ⟨i + 1, hj⟩).field_vis := by
  obtain ⟨f, rest, hf, hid, hc, hd⟩ := diesel_new_ok_cases s d h
  have key : d.fields.get ⟨i, hi⟩ = s.fields.get ⟨i + 1, hj⟩ := by
    obtain ⟨sm, sv, n, fs, tc⟩ := s
    subst hf
    subst hd
    simp [List.get_eq_getElem]
  rw [key]
  exact ⟨rfl, rfl⟩

/-- C7 witness: the `name` field of `User`, carrying an attribute and a
`pub` visibility, reappears unchanged at index 0 of `NewUser`. -/
theorem field_metadata_preservation_witness :
    (newUserDecl.fields.get ⟨0, by decide⟩).field_meta =
      (userDecl.fields.get ⟨1, by decide⟩).field_meta ∧
    (newUserDecl.fields.get ⟨0, by decide⟩).field_vis =
      (userDecl.fields.get ⟨1, by decide⟩).field_vis :=
  field_metadata_preservation userDecl newUserDecl rfl 0 (by decide) (by decide)

/-- C8: when the input is rejected because its field list is empty or its
first field is not literally named `id`, the raised MalformedInputError
names the expected shape: its expected token is the literal `id` that the
pattern requires as the first field's name. -/
theorem error_names_expected_shape (s : StructDecl)
    (h : ∀ f, s.fields.head? = some f → f.field_name ≠ "id") :
    diesel_new s = Except.error ⟨"id"⟩ :=
  diesel_new_error_of_bad_head s h

/-- C8 witness: a struct with an empty field list. -/
theorem error_names_expected_shape_witness :
    diesel_new noFieldsDecl = Except.error ⟨"id"⟩ :=
  error_names_expected_shape noFieldsDecl (by intro f hf; simp [noFieldsDecl] at hf)

/-- C9: a struct whose field list is the sole field `id` is rejected when
no trailing comma follows it (the pattern requires a literal comma right
after the id field), and accepted — yielding a derived struct with no
fields — when the trailing comma is written. -/
theorem sole_id_needs_trailing_comma (sm : List String) (sv n : String)
    (f : FieldDecl) (hid : f.field_name = "id") :
    diesel_new ⟨sm, sv, n, [f], false⟩ = Except.error ⟨","⟩ ∧
    diesel_new ⟨sm, sv, n, [f], true⟩ =
      Except.ok ⟨sm ++ [insertableMarker], sv, newIdent n, [], false⟩ := by
  constructor <;> simp [diesel_new, hid]

/-- C9 witness: `struct Point { id: i32 }` versus `struct Point { id: i32, }`. -/
theorem sole_id_needs_trailing_comma_witness :
    diesel_new ⟨[], "pub", "Point", [⟨[], "", "id", "i32"⟩], false⟩ = Except.error ⟨","⟩ ∧
    diesel_new ⟨[], "pub", "Point", [⟨[], "", "id", "i32"⟩], true⟩ =
      Except.ok ⟨[] ++ [insertableMarker], "pub", newIdent "Point", [], false⟩ :=
  sole_id_needs_trailing_comma [] "pub" "Point" ⟨[], "", "id", "i32"⟩ rfl

/-- C10: in attribute mode, the re-emitted original keeps the attributes
written above the apply attribute followed by those below; the derived
declaration carries only the attributes written below the apply attribute
plus the appended marker, so an attribute written above it (and not also
written below, and distinct from the marker) does not appear on the
derived declaration. -/
theorem attrs_above_apply_not_copied (attrsAbove : List String)
    (s orig d : StructDecl)
    (h : NewInsertable attrsAbove s = Except.ok [orig, d]) :
    orig.struct_meta = attrsAbove ++ s.struct_meta ∧
    d.struct_meta = s.struct_meta ++ [insertableMarker] ∧
    ∀ a ∈ attrsAbove, a ∉ s.struct_meta → a ≠ insertableMarker →
      a ∉ d.struct_meta := by
  unfold NewInsertable at h
  cases hd : diesel_new s with
  | error e => rw [hd] at h; exact absurd h (by simp [Except.map])
  | ok d0 =>
    rw [hd] at h
    simp only [Except.map] at h
    have hl := Except.ok.inj h
    have horig : orig = { s with struct_meta := attrsAbove ++ s.struct_meta } :=
      (List.cons.inj hl).1.symm
    have hder : d = d0 := (List.cons.inj (List.cons.inj hl).2).1.symm
    obtain ⟨f, rest, hf, hid, hc, hd0⟩ := diesel_new_ok_cases s d0 hd
    subst hder
    subst hd0
    refine ⟨by rw [horig], rfl, ?_⟩
    intro a ha hnot hmark
    simp only [List.mem_append, List.mem_singleton]
    rintro (h1 | h2)
    · exact hnot h1
    · exact hmark h2

/-- C10 witness: the `SuperUser` struct with `#[derive(Identifiable)]`
written above the apply attribute. -/
theorem attrs_above_apply_not_copied_witness :
    origSuperUserDecl.struct_meta =
      ["#[derive(Identifiable)]"] ++ superUserDecl.struct_meta ∧
    newSuperUserDecl.struct_meta = superUserDecl.struct_meta ++ [insertableMarker] ∧
    ∀ a ∈ ["#[derive(Identifiable)]"], a ∉ superUserDecl.struct_meta →
      a ≠ insertableMarker → a ∉ newSuperUserDecl.struct_meta :=
  attrs_above_apply_not_copied ["#[derive(Identifiable)]"]
    superUserDecl origSuperUserDecl newSuperUserDecl rfl

end DieselNew
